import Mathlib

/-!
Shallow embedding of `src/fetch_reply.py` (email ingestion / classification /
routing pipeline): content normalization, retry with backoff, paginated
resource walking, token caching, and the per-message processing state machine.
All machine arithmetic in the source is bounded integers / floats on small
values; sizes and counters are modelled as `Nat`, times and confidences as `ℚ`.
-/

namespace FetchReply

/-- The closed set of allowed classification labels (`ALLOWED_LABELS`). -/
def ALLOWED_LABELS : List String :=
  ["no_reply_no_info",
   "no_reply_with_info",
   "auto_reply_no_info",
   "auto_reply_with_info",
   "invoice_request_no_info",
   "claims_paid_no_proof",
   "claims_paid_with_proof",
   "manual_review",
   "uncategorised"]

/-- Labels that should receive responses (`RESPONSE_LABELS`). -/
def RESPONSE_LABELS : List String :=
  ["invoice_request_no_info",
   "claims_paid_no_proof"]

/-- One body variant of a Graph message: the `content` / `contentType` pair.
A present-but-content-less body dict is modelled with `content = ""`
(both are falsy at every use site in the source). -/
structure MailBody where
  content : String
  contentType : String
deriving DecidableEq, Repr

/-- A fetched remote message (the fields of the Graph payload that
`_extract_clean_email_content` and `_process_single_email` read).
An absent `uniqueBody` / `body` key is `none` (`msg.get(..., {})` is falsy). -/
structure Msg where
  id : String
  subject : String
  sender : String
  bodyPreview : String
  uniqueBody : Option MailBody
  body : Option MailBody
  hasAttachments : Bool
  conversationId : String
  receivedDateTime : String
deriving DecidableEq, Repr

/-! ### String primitives

Python's `str.strip` / `str.lower` / `str.startswith` / `str.replace` are
embedded as character-list scans (Lean's own `String` versions are not used
so that every definition evaluates by kernel reduction). -/

/-- Python `\s` on the ASCII range (space, tab, newline, return, vtab,
formfeed) — also the character class `str.strip()` removes. -/
def isPySpace (c : Char) : Bool :=
  c = ' ' ∨ c = '\t' ∨ c = '\n' ∨ c = '\r' ∨ c = Char.ofNat 11 ∨ c = Char.ofNat 12

/-- Python `str.strip()`: drop whitespace from both ends. -/
def pyStrip (s : String) : String :=
  String.mk (((s.data.dropWhile isPySpace).reverse.dropWhile isPySpace).reverse)

/-- ASCII lower-casing of one character (`str.lower` on the inputs the
source compares: `contentType` values). -/
def lowerChar (c : Char) : Char :=
  if 65 ≤ c.toNat ∧ c.toNat ≤ 90 then Char.ofNat (c.toNat + 32) else c

/-- Python `str.lower()`. -/
def pyLower (s : String) : String :=
  String.mk (s.data.map lowerChar)

/-- Python `str.startswith(pre)`. -/
def pyStartsWith (s pre : String) : Bool :=
  decide (s.data.take pre.data.length = pre.data)

/-- Python `str.replace(pat, rep)`: replace every non-overlapping occurrence,
scanning left to right. The fuel is instantiated above the input length,
which suffices since every step consumes at least one character. -/
def replaceChars : Nat → List Char → List Char → List Char → List Char
  | 0, _, _, s => s
  | _ + 1, _, _, [] => []
  | fuel + 1, pat, rep, c :: rest =>
    if pat ≠ [] ∧ (c :: rest).take pat.length = pat then
      rep ++ replaceChars fuel pat rep ((c :: rest).drop pat.length)
    else c :: replaceChars fuel pat rep rest

/-! ### `_html_to_text`: tag stripping, entity collapse, whitespace collapse

The regex passes are embedded as character-list scans with fuel (the fuel is
always instantiated to more than the input length, which suffices since every
step consumes at least one character). -/

/-- Position after the first `>` in the list, if any
(the closing bracket of a `<[^>]+>` match). -/
def findClose : List Char → Option (List Char)
  | [] => none
  | c :: rest => if c = '>' then some rest else findClose rest

/-- `re.sub(r'<[^>]+>', '', s)`: left-to-right, a `<` with at least one
non-`>` character before the next `>` is removed together with that span;
an unmatched `<` is kept verbatim. -/
def stripTags : Nat → List Char → List Char
  | 0, cs => cs
  | _ + 1, [] => []
  | fuel + 1, c :: rest =>
    if c = '<' then
      match rest with
      | [] => ['<']
      | d :: _ =>
        if d = '>' then '<' :: stripTags fuel rest
        else
          match findClose rest with
          | some rem => stripTags fuel rem
          | none => '<' :: stripTags fuel rest
    else c :: stripTags fuel rest

/-- An apostrophe character (kept out of string literals). -/
def apos : String := String.singleton (Char.ofNat 39)

/-- The `html_entities` replacement table, in source (insertion) order. -/
def htmlEntities : List (String × String) :=
  [("&nbsp;", " "),
   ("&amp;", "&"),
   ("&lt;", "<"),
   ("&gt;", ">"),
   ("&quot;", "\""),
   ("&#39;", apos),
   ("&apos;", apos),
   ("\r\n", "\n"),
   ("\r", "\n")]

/-- Scan a whitespace run, returning the position after the last newline seen
in it, if any (the greedy `\s*` of `\n\s*\n` backtracks to the last `\n`). -/
def nlMatchAux : List Char → Option (List Char) → Option (List Char)
  | [], best => best
  | c :: rest, best =>
    if isPySpace c then nlMatchAux rest (if c = '\n' then some rest else best)
    else best

/-- Try to match `\s*\n` (the tail of `re.sub(r'\n\s*\n', '\n\n', ·)`)
at the head of the list. -/
def nlMatch (l : List Char) : Option (List Char) := nlMatchAux l none

/-- `re.sub(r'\n\s*\n', '\n\n', s)`: collapse a newline, whitespace, newline
span to exactly two newlines. -/
def collapseNl : Nat → List Char → List Char
  | 0, cs => cs
  | _ + 1, [] => []
  | fuel + 1, c :: rest =>
    if c = '\n' then
      match nlMatch rest with
      | some rem => '\n' :: '\n' :: collapseNl fuel rem
      | none => c :: collapseNl fuel rest
    else c :: collapseNl fuel rest

/-- `re.sub(r'[ \t]+', ' ', s)`: collapse runs of spaces / tabs to one space.
The flag records being inside a run already emitted. -/
def collapseSpaces : Bool → List Char → List Char
  | _, [] => []
  | inRun, c :: rest =>
    if c = ' ' ∨ c = '\t' then
      if inRun then collapseSpaces true rest
      else ' ' :: collapseSpaces true rest
    else c :: collapseSpaces false rest

/-- `MSGraphClient._html_to_text`: strip tags, collapse entities, collapse
blank lines and horizontal whitespace, trim the ends. -/
def htmlToText (htmlContent : String) : String :=
  if htmlContent = "" then ""
  else
    let text := stripTags (htmlContent.data.length + 1) htmlContent.data
    let text := htmlEntities.foldl
      (fun t p => replaceChars (t.length + 1) p.1.data p.2.data t) text
    let text := collapseNl (text.length + 1) text
    let text := collapseSpaces false text
    pyStrip (String.mk text)

/-! ### `_extract_clean_email_content` -/

/-- `MSGraphClient._extract_clean_email_content msg` =
`(clean_body, data_source, had_threads)`.

The thread check compares stripped lengths with `len(full) > len(unique) * 1.2`;
over the naturals this float comparison is exactly `5 * F > 6 * U`
(the rounded double product agrees with the rational `6·U/5` threshold for
every length below 2^50, far beyond any mail body). -/
def extractCleanEmailContent (msg : Msg) : String × String × Bool :=
  let hadThreads : Bool :=
    match msg.uniqueBody, msg.body with
    | some ub, some fb =>
      if ub.content ≠ "" ∧ fb.content ≠ "" then
        let uniqueContent := pyStrip ub.content
        let fullContent := pyStrip fb.content
        decide (0 < uniqueContent.length ∧
                5 * fullContent.length > 6 * uniqueContent.length)
      else false
    | _, _ => false
  -- 1. try uniqueBody first
  let st1 : String × String :=
    match msg.uniqueBody with
    | some ub =>
      if ub.content ≠ "" then
        let uniqueContent := pyStrip ub.content
        let contentType := pyLower ub.contentType
        if contentType = "text" then (uniqueContent, "uniqueBody_text")
        else if contentType = "html" ∧ uniqueContent ≠ "" then
          (htmlToText uniqueContent, "uniqueBody_html_converted")
        else ("", "")
      else ("", "")
    | none => ("", "")
  -- 2. if uniqueBody produced nothing, use the full body
  let st2 : String × String :=
    if st1.1 = "" then
      match msg.body with
      | some fb =>
        if fb.content ≠ "" then
          let bodyContent := pyStrip fb.content
          let contentType := pyLower fb.contentType
          if contentType = "text" then (bodyContent, "body_text")
          else if contentType = "html" ∧ bodyContent ≠ "" then
            (htmlToText bodyContent, "body_html_converted")
          else st1
        else st1
      | none => st1
    else st1
  -- 3. last resort: bodyPreview
  let st3 : String × String :=
    if st2.1 = "" then (pyStrip msg.bodyPreview, "bodyPreview_fallback") else st2
  (st3.1, st3.2, hadThreads)

/-! ### `retry_with_backoff` -/

/-- An exception raised by an operation wrapped by `retry_with_backoff`.
`isRequestError` records whether the `except httpx.RequestError` clause
catches it; `status` is `e.response.status_code` when a response object is
attached to the exception (the `getattr`/`hasattr` probe yields `none`
otherwise). -/
structure HttpErr where
  isRequestError : Bool
  status : Option Nat
deriving DecidableEq, Repr

/-- What the retry wrapper can raise: a propagated operation exception, or
the defensive `RuntimeError` after a loop that never ran. -/
inductive RetryErr where
  | exc (e : HttpErr)
  | runtime
deriving DecidableEq, Repr

/-- `status_code and 400 <= status_code < 500 and status_code not in (429, 408)`
(a falsy — absent or zero — status code fails the test). -/
def nonRetryableStatus : Option Nat → Bool
  | none => false
  | some c => decide (c ≠ 0 ∧ 400 ≤ c ∧ c < 500 ∧ c ≠ 429 ∧ c ≠ 408)

/-- The attempt loop of `retry_with_backoff`, from iteration `attempt` with
current nominal `backoff`. `op i` is the outcome of the wrapped call on
attempt `i`. Returns the final outcome and the list of nominal backoff
values slept (the source multiplies each by a random jitter factor in
`[1, 1.1)` before sleeping; the nominal values are what double). -/
def retryFrom {α : Type} (op : Nat → Except HttpErr α) (maxRetries : Nat)
    (attempt : Nat) (backoff : ℚ) (sleeps : List ℚ) :
    Except RetryErr α × List ℚ :=
  if _h : attempt < maxRetries then
    match op attempt with
    | .ok a => (.ok a, sleeps.reverse)
    | .error e =>
      if ¬ e.isRequestError then
        -- not an httpx.RequestError: the except clause does not catch it
        (.error (.exc e), sleeps.reverse)
      else if nonRetryableStatus e.status then
        -- client error other than 429/408: re-raised without retry
        (.error (.exc e), sleeps.reverse)
      else if attempt = maxRetries - 1 then
        -- last attempt: re-raised
        (.error (.exc e), sleeps.reverse)
      else
        retryFrom op maxRetries (attempt + 1) (backoff * 2) (backoff :: sleeps)
  else
    (.error .runtime, sleeps.reverse)
termination_by maxRetries - attempt

/-- `retry_with_backoff(max_retries, initial_backoff)` applied to an
operation whose attempt-indexed outcomes are `op`. -/
def retryWithBackoff {α : Type} (maxRetries : Nat) (initialBackoff : ℚ)
    (op : Nat → Except HttpErr α) : Except RetryErr α × List ℚ :=
  retryFrom op maxRetries 0 initialBackoff []

/-! ### `get_all_pages` -/

/-- One fetched Graph collection page: its `value` array and whether an
`@odata.nextLink` is present (a falsy link ends the walk). -/
structure Page (α : Type) where
  value : List α
  hasNext : Bool
deriving DecidableEq, Repr

/-- The inner `for item in data.get("value", [])` loop: yield items,
incrementing `count`; once `max_items and count >= max_items` holds the
generator returns mid-page. Result: (yielded items, new count, stopped?). -/
def yieldPage {α : Type} (maxItems : Nat) : Nat → List α → List α × Nat × Bool
  | count, [] => ([], count, false)
  | count, it :: rest =>
    let c := count + 1
    if maxItems ≠ 0 ∧ maxItems ≤ c then ([it], c, true)
    else
      let r := yieldPage maxItems c rest
      (it :: r.1, r.2.1, r.2.2)

/-- The `while full_url` loop of `get_all_pages`. The environment `pages`
lists the outcomes of the successive fetches the walker would perform:
`.ok p` a parsed page, `.error ()` an HTTP-status / network / other error
(all three except clauses `break`). An exhausted environment while a next
link is still pending behaves like a failed fetch: the walk just ends. -/
def getAllPagesGo {α : Type} (maxItems : Nat) :
    Nat → List (Except Unit (Page α)) → List α
  | _, [] => []
  | _, .error _ :: _ => []
  | count, .ok p :: rest =>
    let r := yieldPage maxItems count p.value
    if r.2.2 then r.1
    else if p.hasNext then r.1 ++ getAllPagesGo maxItems r.2.1 rest
    else r.1

/-- `MSGraphClient.get_all_pages(url, params, max_items)`: a falsy
`max_items` (absent or zero) is replaced by the instance `batch_size`
(`max_items = max_items or self.batch_size`), then the walk runs. -/
def getAllPages {α : Type} (batchSize : Nat) (maxItems : Option Nat)
    (pages : List (Except Unit (Page α))) : List α :=
  let m := match maxItems with
    | some n => if n = 0 then batchSize else n
    | none => batchSize
  getAllPagesGo m 0 pages

/-! ### `get_access_token` -/

/-- `MSGraphClient._token_cache`: initially `{"token": None, "expires_at": 0}`. -/
structure TokenCache where
  token : Option String
  expiresAt : ℚ
deriving DecidableEq, Repr

/-- A successful msal token exchange: the `access_token` and the reported
`expires_in` lifetime (defaulted to 3600 when absent). -/
structure ExchangeResult where
  accessToken : String
  expiresIn : Option ℚ
deriving DecidableEq, Repr

/-- Fatal authentication failures: missing configuration (`validate_config`
raising) or a rejected exchange (no `access_token` in the msal result). -/
inductive AuthErr where
  | configMissing
  | acquireFailed
deriving DecidableEq, Repr

/-- Truthiness of the cached token (`self._token_cache.get("token")`). -/
def tokenTruthy : Option String → Bool
  | some t => t ≠ ""
  | none => false

/-- `MSGraphClient.get_access_token(force_refresh)`. `configOk` is whether
`validate_config` passes; `exch` the identity-provider exchange outcome;
`currentTime` is `time.time()`. Returns the token and the new cache. -/
def getAccessToken (configOk : Bool) (exch : Except Unit ExchangeResult)
    (currentTime : ℚ) (forceRefresh : Bool) (c : TokenCache) :
    Except AuthErr (String × TokenCache) :=
  if ¬ forceRefresh ∧ tokenTruthy c.token ∧ currentTime + 60 < c.expiresAt then
    .ok (c.token.getD "", c)
  else if ¬ configOk then .error .configMissing
  else
    match exch with
    | .ok r =>
      .ok (r.accessToken, ⟨some r.accessToken, currentTime + r.expiresIn.getD 3600⟩)
    | .error _ => .error .acquireFailed

/-! ### `ModelAPIClient`: classification and reply generation -/

/-- The classifier result dictionary: `label`, `confidence`, `method`, and
optional `entities` (modelled as an association list of entity kind to an
opaque payload). -/
structure ClassDict where
  label : String
  confidence : ℚ
  method : String
  entities : List (String × String)
deriving DecidableEq, Repr

/-- `ModelAPIClient.classify_email`. `healthOk` is the `health_check()`
outcome; `resp` is the parsed first result of a well-formed success
response, `none` when the request raised, returned bad JSON, or had an
unexpected format (all of which produce the `api_error` fallback dict). -/
def classifyEmail (healthOk : Bool) (resp : Option ClassDict) : ClassDict :=
  if ¬ healthOk then ⟨"uncategorised", 0, "api_unavailable", []⟩
  else
    match resp with
    | some c => c
    | none => ⟨"uncategorised", 0, "api_error", []⟩

/-- `ModelAPIClient.generate_reply`. `healthOk` is the `health_check()`
outcome; `callResp` is the `reply` field of the response, `none` when the
request raised or the field was absent (the method catches every exception
and returns the empty string). -/
def generateReply (healthOk : Bool) (callResp : Option String) (label : String) :
    String :=
  if ¬ (label ∈ RESPONSE_LABELS) then ""
  else if ¬ healthOk then ""
  else callResp.getD ""

/-! ### `EmailProcessor._process_single_email` -/

/-- Deployment flags `MAIL_SEND_ENABLED` and `FORCE_DRAFTS`. -/
structure Config where
  mailSendEnabled : Bool
  forceDrafts : Bool
deriving DecidableEq, Repr

/-- The run metrics dictionary `self.metrics`. -/
structure Metrics where
  emails_processed : Nat
  emails_classified : Nat
  emails_skipped : Nat
  emails_errored : Nat
  emails_moved : Nat
  clean_text_extracted : Nat
deriving DecidableEq, Repr

/-- The persisted Mongo document for one message (`email_data`): the fields
the pipeline writes that the verified claims are about. -/
structure EmailRecord where
  message_id : String
  sender : String
  subject : String
  body : String
  classification : String
  confidence : ℚ
  method : String
  response : String
  save_as_draft : Bool
  target_folder : String
  entities : List (String × String)
  conversation_id : String
  has_attachments : Bool
  data_source : String
  had_threads : Bool
deriving DecidableEq, Repr

/-- Observable state threaded through one message: the persisted record
store plus traces of the remote calls made (classifier invocations, reply
invocations, move requests as (message id, folder id), read-status patches
as (message id, is_read)), and the run metrics. -/
structure World where
  records : List EmailRecord
  classifyCalls : Nat
  replyCalls : Nat
  moveCalls : List (String × String)
  markReadCalls : List (String × Bool)
  metrics : Metrics
deriving DecidableEq, Repr

/-- Behaviour of the external collaborators while one message is processed.
A `…Raises` flag models an exception escaping that step into the
surrounding handler; `moveResult` / `markResult` errors model exceptions
escaping those Graph helpers (e.g. a token failure raised before their own
try blocks). `moveResult.ok (success, newId)` is the pair
`move_email_to_folder` returns, with `newId = ""` standing for a falsy id. -/
structure Ext where
  existsRaises : Bool
  classifyHealthOk : Bool
  classifyResp : Option ClassDict
  classifyRaises : Bool
  replyHealthOk : Bool
  replyResp : Option String
  replyRaises : Bool
  insertRaises : Bool
  moveResult : Except Unit (Bool × String)
  markResult : Except Unit Bool
deriving Repr

/-- `self.mongo.email_exists(message_id)`. -/
def emailExists (records : List EmailRecord) (messageId : String) : Bool :=
  records.any (fun r => r.message_id = messageId)

/-- `self.mongo.update_message_id(old_id, new_id)`: re-key the persisted
record(s) tracked under the old external id. -/
def updateMessageId (records : List EmailRecord) (oldId newId : String) :
    List EmailRecord :=
  records.map (fun r => if r.message_id = oldId then { r with message_id := newId } else r)

/-- `needs_manual_review = label in ["manual_review", "uncategorised"]`. -/
def needsManualReviewOf (label : String) : Bool :=
  label = "manual_review" ∨ label = "uncategorised"

/-- Step 5 of `_process_single_email`: `save_as_draft = needs_manual_review`,
then forced to `True` when `not MAIL_SEND_ENABLED or FORCE_DRAFTS`. -/
def saveAsDraftFlag (cfg : Config) (label : String) : Bool :=
  let needs := needsManualReviewOf label
  if ¬ cfg.mailSendEnabled ∨ cfg.forceDrafts then true else needs

/-- Step 6 of `_process_single_email`: assemble the Mongo document. -/
def mkEmailData (cfg : Config) (msg : Msg) (cleanBody dataSource : String)
    (hadThreads : Bool) (label : String) (confidence : ℚ) (method : String)
    (entities : List (String × String)) (replyText : String) : EmailRecord :=
  { message_id := msg.id
    sender := msg.sender
    subject := msg.subject
    body := cleanBody
    classification := label
    confidence := confidence
    method := method
    response := replyText
    save_as_draft := saveAsDraftFlag cfg label
    target_folder := label
    entities := entities
    conversation_id := msg.conversationId
    has_attachments := msg.hasAttachments
    data_source := dataSource
    had_threads := hadThreads }

/-- The enclosing `except Exception` of `_process_single_email`:
count the message as errored. -/
def bumpErrored (w : World) : World :=
  { w with metrics := { w.metrics with emails_errored := w.metrics.emails_errored + 1 } }

/-- Step 9 of `_process_single_email`: patch the read status of the (possibly
relocated) message, then count it processed. An exception escaping the
patch call lands in the enclosing handler. -/
def markReadStep (ext : Ext) (label : String) (messageId : String) (w : World) :
    World :=
  let isRead : Bool := ¬ (label = "manual_review" ∨ label = "uncategorised")
  let w := { w with markReadCalls := w.markReadCalls ++ [(messageId, isRead)] }
  match ext.markResult with
  | .error _ => bumpErrored w
  | .ok _ =>
    { w with metrics :=
        { w.metrics with emails_processed := w.metrics.emails_processed + 1 } }

/-- Steps 3–4 of `_process_single_email`: classification (with its local
except branch) and conditional reply generation. Returns the final label,
the stored confidence, the classifier dict in scope, the reply text, and
the world with call counters and the classified metric updated. -/
def classifyAndReply (ext : Ext) (w : World) :
    String × ℚ × ClassDict × String × World :=
  -- step 3: classify (classify_email itself catches its own failures;
  -- classifyRaises models an exception reaching the local except branch)
  let w := { w with classifyCalls := w.classifyCalls + 1 }
  let cres0 := classifyEmail ext.classifyHealthOk ext.classifyResp
  let label0 := cres0.label
  let label := if ext.classifyRaises then "uncategorised"
    else if label0 ∈ ALLOWED_LABELS then label0 else "uncategorised"
  let confidence := if ext.classifyRaises then 0 else cres0.confidence
  let cres := if ext.classifyRaises then
      (⟨"uncategorised", 0, "api_error", []⟩ : ClassDict)
    else cres0
  let w := if ext.classifyRaises then w
    else { w with metrics :=
        { w.metrics with emails_classified := w.metrics.emails_classified + 1 } }
  -- step 4: generate a reply if needed (the except branch degrades the
  -- label and clears the reply)
  let s4 : String × String × World :=
    if label ∈ RESPONSE_LABELS then
      let w := { w with replyCalls := w.replyCalls + 1 }
      if ext.replyRaises then ("uncategorised", "", w)
      else (label, generateReply ext.replyHealthOk ext.replyResp label, w)
    else (label, "", w)
  (s4.1, confidence, cres, s4.2.1, s4.2.2)

/-- Steps 8–9 of `_process_single_email`: move the message to the label
folder when mapped (patching the tracked id on success), then patch the
read status. -/
def moveAndMark (ext : Ext) (folderMapping : List (String × String))
    (label : String) (messageId : String) (w : World) : World :=
  match folderMapping.lookup label with
  | some folderId =>
    let w := { w with moveCalls := w.moveCalls ++ [(messageId, folderId)] }
    match ext.moveResult with
    | .error _ => bumpErrored w
    | .ok mv =>
      if mv.1 ∧ mv.2 ≠ "" then
        let w := { w with
          records := updateMessageId w.records messageId mv.2,
          metrics := { w.metrics with emails_moved := w.metrics.emails_moved + 1 } }
        markReadStep ext label mv.2 w
      else
        markReadStep ext label messageId w
  | none =>
    markReadStep ext label messageId w

/-- Steps 3–9 of `_process_single_email`: everything after the dedup check.
Mutations already performed persist when a later step raises into the
message-boundary handler, exactly as in the source. -/
def processAfterDedup (cfg : Config) (folderMapping : List (String × String))
    (ext : Ext) (msg : Msg) (cleanBody dataSource : String) (hadThreads : Bool)
    (w : World) : World :=
  let r := classifyAndReply ext w
  let label := r.1
  let confidence := r.2.1
  let cres := r.2.2.1
  let replyText := r.2.2.2.1
  let w := r.2.2.2.2
  -- steps 5–6: flags and document assembly
  let rec0 := mkEmailData cfg msg cleanBody dataSource hadThreads label
    confidence cres.method cres.entities replyText
  -- step 7: insert into Mongo
  if ext.insertRaises then bumpErrored w
  else
    let w := { w with records := w.records ++ [rec0] }
    moveAndMark ext folderMapping label msg.id w

/-- `EmailProcessor._process_single_email(msg)` as a transition on `World`,
given the deployment flags, the run folder mapping, and the collaborator
behaviour for this message. -/
def processSingleEmail (cfg : Config) (folderMapping : List (String × String))
    (ext : Ext) (msg : Msg) (w : World) : World :=
  -- step 1: metadata and clean-content extraction (total: internal
  -- failures fall back inside _extract_clean_email_content)
  let ec := extractCleanEmailContent msg
  let w := if pyStartsWith ec.2.1 "uniqueBody" then
      { w with metrics :=
          { w.metrics with clean_text_extracted := w.metrics.clean_text_extracted + 1 } }
    else w
  -- step 2: skip duplicates (an exception from the existence check lands in
  -- the message-boundary handler)
  if ext.existsRaises then bumpErrored w
  else if emailExists w.records msg.id then
    { w with metrics :=
        { w.metrics with emails_skipped := w.metrics.emails_skipped + 1 } }
  else
    processAfterDedup cfg folderMapping ext msg ec.1 ec.2.1 ec.2.2 w

/-! ## Theorems -/

/-- C1: for every message, the `had_threads` flag computed by
`_extract_clean_email_content` is true iff both the unique-body and
full-body variants are present with non-empty content and, with `U` the
stripped unique-body length and `F` the stripped full-body length,
`U > 0` and `F > 1.2·U` (exactly `5·F > 6·U` over the integers); in every
other case it is false. -/
theorem hadThreads_iff_both_bodies (msg : Msg) :
    (extractCleanEmailContent msg).2.2 = true ↔
      ∃ ub fb, msg.uniqueBody = some ub ∧ msg.body = some fb ∧
        ub.content ≠ "" ∧ fb.content ≠ "" ∧
        0 < (pyStrip ub.content).length ∧
        5 * (pyStrip fb.content).length > 6 * (pyStrip ub.content).length := by
  cases hub : msg.uniqueBody with
  | none => simp [extractCleanEmailContent, hub]
  | some ub =>
    cases hfb : msg.body with
    | none => simp [extractCleanEmailContent, hub, hfb]
    | some fb =>
      by_cases h1 : ub.content = "" <;> by_cases h2 : fb.content = "" <;>
        simp [extractCleanEmailContent, hub, hfb, h1, h2, and_assoc]

/-- C1 witness: a message whose unique body is markedly shorter than its
full body is flagged as threaded. -/
theorem hadThreads_iff_both_bodies_witness :
    (extractCleanEmailContent
      { id := "m1", subject := "s", sender := "a@b", bodyPreview := "p",
        uniqueBody := some { content := "hi", contentType := "text" },
        body := some { content := "hi there, lots of quoted thread text", contentType := "text" },
        hasAttachments := false, conversationId := "c1",
        receivedDateTime := "t" }).2.2 = true :=
  (hadThreads_iff_both_bodies _).mpr
    ⟨_, _, rfl, rfl, by decide, by decide, by decide, by decide⟩

/-- Environment pages that are mutually consistent: every page followed by
another fetched page announces a next link. -/
def chainOk {α : Type} : List (Page α) → Bool
  | [] => true
  | [_] => true
  | p :: rest => p.hasNext && chainOk rest

theorem yieldPage_all {α : Type} (m : Nat) :
    ∀ (v : List α) (c : Nat), v.length < m - c →
      yieldPage m c v = (v, c + v.length, false) := by
  intro v
  induction v with
  | nil => intro c _; simp [yieldPage]
  | cons it rest ih =>
    intro c h
    have hns : ¬ (m ≤ c + 1) := by simp at h; omega
    have hr := ih (c + 1) (by simp at h ⊢; omega)
    simp only [yieldPage]
    rw [if_neg (fun hh => hns hh.2), hr]
    simp only [Prod.mk.injEq, List.length_cons, true_and, and_self, and_true]
    omega

theorem yieldPage_stop {α : Type} (m : Nat) :
    ∀ (v : List α) (c : Nat), c < m → m - c ≤ v.length →
      yieldPage m c v = (v.take (m - c), m, true) := by
  intro v
  induction v with
  | nil => intro c hc h; simp at h; omega
  | cons it rest ih =>
    intro c hc h
    by_cases hstop : m ≤ c + 1
    · have hm : m ≠ 0 := by omega
      have hmc : m - c = 1 := by omega
      simp only [yieldPage]
      rw [if_pos ⟨hm, hstop⟩]
      simp [hmc]
      omega
    · have hlt : c + 1 < m := by omega
      have hr := ih (c + 1) hlt (by simp at h; omega)
      have h1 : m - c = (m - (c + 1)) + 1 := by omega
      simp only [yieldPage]
      rw [if_neg (fun hh => hstop hh.2), hr]
      simp [h1, List.take_succ_cons]

theorem getAllPagesGo_cons_ok {α : Type} (m c : Nat) (p : Page α)
    (rest : List (Except Unit (Page α))) :
    getAllPagesGo m c (Except.ok p :: rest) =
      (if (yieldPage m c p.value).2.2 then (yieldPage m c p.value).1
       else if p.hasNext then
         (yieldPage m c p.value).1 ++ getAllPagesGo m (yieldPage m c p.value).2.1 rest
       else (yieldPage m c p.value).1) := rfl

theorem getAllPagesGo_chain {α : Type} (m : Nat) :
    ∀ (ps : List (Page α)) (c : Nat), c < m → chainOk ps = true →
      getAllPagesGo m c (ps.map Except.ok) = (ps.flatMap Page.value).take (m - c) := by
  intro ps
  induction ps with
  | nil => intro c _ _; simp [getAllPagesGo]
  | cons p rest ih =>
    intro c hc hchain
    by_cases hstop : m - c ≤ p.value.length
    · -- the page itself satisfies the bound: stop mid-page
      have hy := yieldPage_stop m p.value c hc hstop
      rw [List.map_cons, getAllPagesGo_cons_ok, hy]
      simp [List.flatMap_cons, List.take_append_eq_append_take,
            Nat.sub_eq_zero_of_le hstop]
    · have hy := yieldPage_all m p.value c (by omega)
      rw [List.map_cons, getAllPagesGo_cons_ok, hy]
      simp only [Bool.false_eq_true, if_false]
      have htake : (m - c) - p.value.length = m - (c + p.value.length) := by omega
      cases rest with
      | nil =>
        have hall : p.value.take (m - c) = p.value :=
          List.take_of_length_le (by omega)
        simp [getAllPagesGo, hall]
      | cons q rest2 =>
        have hsplit : p.hasNext = true ∧ chainOk (q :: rest2) = true := by
          have heq : chainOk (p :: q :: rest2) = (p.hasNext && chainOk (q :: rest2)) := rfl
          rw [heq, Bool.and_eq_true] at hchain
          exact hchain
        have hrec := ih (c + p.value.length) (by omega) hsplit.2
        simp only [hsplit.1, if_true]
        conv_rhs => rw [List.flatMap_cons, List.take_append_eq_append_take,
            List.take_of_length_le (by omega : p.value.length ≤ m - c)]
        rw [hrec, htake]

/-- C4: with a positive `max_items` bound and a consistent page chain, the
walk yields the first `min(max_items, total)` items in page order — it is
exactly a `take max_items` of the concatenated pages, stopping mid-page
once the bound is reached (in particular 5 items from a 2+2+2 source). -/
theorem pagination_yields_min (bs : Nat) {α : Type} (m : Nat) (ps : List (Page α))
    (hm : 0 < m) (hchain : chainOk ps = true) :
    getAllPages bs (some m) (ps.map Except.ok) = (ps.flatMap Page.value).take m ∧
    (getAllPages bs (some m) (ps.map Except.ok)).length
      = min m (ps.flatMap Page.value).length := by
  have h := getAllPagesGo_chain m ps 0 (by omega) hchain
  have hm0 : ¬ (m = 0) := by omega
  constructor
  · simpa [getAllPages, hm0] using h
  · simp only [getAllPages, hm0, if_false]
    simp only [Nat.sub_zero] at h
    rw [h, List.length_take]

/-- C4 witness: a walk with `max_items = 5` over a 3-page 2+2+2 source
yields exactly the first five items, leaving the sixth unconsumed. -/
theorem pagination_yields_min_witness :
    (0 : Nat) < 5 ∧
    chainOk [Page.mk [1, 2] true, Page.mk [3, 4] true, Page.mk [5, 6] false] = true ∧
    getAllPages 125 (some 5)
      ([Page.mk [1, 2] true, Page.mk [3, 4] true,
        Page.mk [(5 : Nat), 6] false].map Except.ok) = [1, 2, 3, 4, 5] :=
  ⟨by decide, by decide,
    (pagination_yields_min 125 5 _ (by decide) (by decide)).1.trans (by decide)⟩

/-- Helper for C9: everything after a failed fetch is irrelevant to the walk. -/
theorem getAllPagesGo_error_append {α : Type} :
    ∀ (pres : List (Except Unit (Page α))) (rest : List (Except Unit (Page α)))
      (m c : Nat),
      getAllPagesGo m c (pres ++ Except.error () :: rest) = getAllPagesGo m c pres := by
  intro pres
  induction pres with
  | nil => intro rest m c; simp [getAllPagesGo]
  | cons hd tl ih =>
    intro rest m c
    cases hd with
    | error e => simp [getAllPagesGo]
    | ok p =>
      simp only [List.cons_append, getAllPagesGo_cons_ok, List.append_eq, ih]

/-- C9: an HTTP-status error, network error, or malformed page (all three
`break`) ends the walk at that point: the items already yielded are exactly
those of the error-free walk up to the failure, and the consumer observes a
normally terminated sequence (no exception escapes the generator). -/
theorem pagination_error_truncates {α : Type} (bs : Nat) (mi : Option Nat)
    (pres rest : List (Except Unit (Page α))) :
    getAllPages bs mi (pres ++ Except.error () :: rest) = getAllPages bs mi pres := by
  unfold getAllPages
  exact getAllPagesGo_error_append pres rest _ 0

/-- A transient remote error: caught by the `except httpx.RequestError`
clause and not a non-retryable client error. -/
def transientErr (e : HttpErr) : Prop :=
  e.isRequestError = true ∧ nonRetryableStatus e.status = false

theorem retryFrom_ok {α : Type} (op : Nat → Except HttpErr α) (mR attempt : Nat)
    (b : ℚ) (s : List ℚ) (a : α) (h : attempt < mR) (hop : op attempt = .ok a) :
    retryFrom op mR attempt b s = (.ok a, s.reverse) := by
  unfold retryFrom
  simp [h, hop]

theorem retryFrom_noRetry {α : Type} (op : Nat → Except HttpErr α) (mR attempt : Nat)
    (b : ℚ) (s : List ℚ) (e : HttpErr) (h : attempt < mR)
    (hop : op attempt = .error e) (hr : e.isRequestError = true)
    (hs : nonRetryableStatus e.status = true) :
    retryFrom op mR attempt b s = (.error (.exc e), s.reverse) := by
  unfold retryFrom
  simp [h, hop, hr, hs]

theorem retryFrom_last {α : Type} (op : Nat → Except HttpErr α) (mR attempt : Nat)
    (b : ℚ) (s : List ℚ) (e : HttpErr) (h : attempt < mR)
    (hop : op attempt = .error e) (ht : transientErr e) (hlast : attempt = mR - 1) :
    retryFrom op mR attempt b s = (.error (.exc e), s.reverse) := by
  subst hlast
  unfold retryFrom
  simp [h, hop, ht.1, ht.2]

theorem retryFrom_retry {α : Type} (op : Nat → Except HttpErr α) (mR attempt : Nat)
    (b : ℚ) (s : List ℚ) (e : HttpErr) (h : attempt < mR)
    (hop : op attempt = .error e) (ht : transientErr e) (hnl : attempt ≠ mR - 1) :
    retryFrom op mR attempt b s = retryFrom op mR (attempt + 1) (b * 2) (b :: s) := by
  conv_lhs => rw [retryFrom]
  simp [h, hop, ht.1, ht.2, hnl]

/-- C2: with the default 3 attempts and 1.5 initial backoff — a caught error
whose status is a 4xx other than 429/408 propagates immediately with no
sleep; transient (caught, retryable) errors are retried with the nominal
backoff doubling (sleeps 1.5 then 3.0), the last transient error being
re-raised when all three attempts fail; a success after two transient
failures is returned. -/
theorem retry_backoff_contract {α : Type} (op : Nat → Except HttpErr α) :
    (∀ e, op 0 = Except.error e → e.isRequestError = true →
      nonRetryableStatus e.status = true →
      retryWithBackoff 3 (3/2) op = (Except.error (RetryErr.exc e), [])) ∧
    (∀ e0 e1 e2, op 0 = Except.error e0 → op 1 = Except.error e1 →
      op 2 = Except.error e2 → transientErr e0 → transientErr e1 → transientErr e2 →
      retryWithBackoff 3 (3/2) op = (Except.error (RetryErr.exc e2), [3/2, 3])) ∧
    (∀ e0 e1 (a : α), op 0 = Except.error e0 → op 1 = Except.error e1 →
      op 2 = Except.ok a → transientErr e0 → transientErr e1 →
      retryWithBackoff 3 (3/2) op = (Except.ok a, [3/2, 3])) := by
  refine ⟨?_, ?_, ?_⟩
  · intro e h0 hr hs
    unfold retryWithBackoff
    rw [retryFrom_noRetry op 3 0 (3/2) [] e (by norm_num) h0 hr hs]
    rfl
  · intro e0 e1 e2 h0 h1 h2 t0 t1 t2
    unfold retryWithBackoff
    rw [retryFrom_retry op 3 0 (3/2) [] e0 (by norm_num) h0 t0 (by norm_num),
        retryFrom_retry op 3 1 _ _ e1 (by norm_num) h1 t1 (by norm_num),
        retryFrom_last op 3 2 _ _ e2 (by norm_num) h2 t2 (by norm_num)]
    norm_num
  · intro e0 e1 a h0 h1 h2 t0 t1
    unfold retryWithBackoff
    rw [retryFrom_retry op 3 0 (3/2) [] e0 (by norm_num) h0 t0 (by norm_num),
        retryFrom_retry op 3 1 _ _ e1 (by norm_num) h1 t1 (by norm_num),
        retryFrom_ok op 3 2 _ _ a (by norm_num) h2]
    norm_num

/-- C2 witness: an operation failing with HTTP 500 on every attempt is
retried twice (sleeping the nominal 1.5 then 3.0) and the final error is
re-raised. -/
theorem retry_backoff_contract_witness :
    retryWithBackoff 3 (3/2)
        (fun _ => (Except.error ⟨true, some 500⟩ : Except HttpErr Nat)) =
      (Except.error (RetryErr.exc ⟨true, some 500⟩), [3/2, 3]) :=
  (retry_backoff_contract _).2.1 ⟨true, some 500⟩ ⟨true, some 500⟩ ⟨true, some 500⟩
    rfl rfl rfl ⟨rfl, by decide⟩ ⟨rfl, by decide⟩ ⟨rfl, by decide⟩

/-- C8: `get_access_token(force_refresh=False)` returns the cached token and
leaves the cache untouched exactly when a (truthy) token is cached and its
expiry exceeds `now + 60`; in every other case — forced refresh, absent or
empty token, or expiry within the 60s margin — a successful credential
exchange replaces the cached credential wholesale with the new token and its
reported lifetime, and the new token is returned. -/
theorem token_cache_contract (configOk : Bool) (exch : Except Unit ExchangeResult)
    (now : ℚ) (c : TokenCache) :
    (∀ t, c.token = some t → t ≠ "" → now + 60 < c.expiresAt →
      getAccessToken configOk exch now false c = .ok (t, c)) ∧
    (∀ r force, exch = .ok r → configOk = true →
      ¬ (force = false ∧ tokenTruthy c.token = true ∧ now + 60 < c.expiresAt) →
      getAccessToken configOk exch now force c =
        .ok (r.accessToken, ⟨some r.accessToken, now + r.expiresIn.getD 3600⟩)) ∧
    (∀ force, ¬ (force = false ∧ tokenTruthy c.token = true ∧
        now + 60 < c.expiresAt) →
      (configOk = false ∨ exch = .error ()) →
      ∃ e, getAccessToken configOk exch now force c = .error e) := by
  refine ⟨?_, ?_, ?_⟩
  · intro t ht hne hlt
    simp [getAccessToken, tokenTruthy, ht, hne, hlt]
  · intro r force hexch hcfg hneg
    have hcond : ¬ (¬ force = true ∧ tokenTruthy c.token = true ∧
        now + 60 < c.expiresAt) := by
      intro hcon
      exact hneg ⟨(Bool.not_eq_true force).mp hcon.1, hcon.2.1, hcon.2.2⟩
    unfold getAccessToken
    rw [if_neg hcond, if_neg (by simp [hcfg]), hexch]
  · intro force hneg h2
    have hcond : ¬ (¬ force = true ∧ tokenTruthy c.token = true ∧
        now + 60 < c.expiresAt) := by
      intro hcon
      exact hneg ⟨(Bool.not_eq_true force).mp hcon.1, hcon.2.1, hcon.2.2⟩
    unfold getAccessToken
    rw [if_neg hcond]
    rcases h2 with hco | hexch
    · rw [if_pos (by simp [hco])]
      exact ⟨AuthErr.configMissing, rfl⟩
    · by_cases hc2 : ¬ configOk = true
      · rw [if_pos hc2]
        exact ⟨AuthErr.configMissing, rfl⟩
      · rw [if_neg hc2, hexch]
        exact ⟨AuthErr.acquireFailed, rfl⟩

/-- C8 witness: a cached unexpired token is returned as-is. -/
theorem token_cache_contract_witness :
    ((0 : ℚ) + 60 < 1000) ∧
    getAccessToken false (.error ()) 0 false ⟨some "tok", 1000⟩ =
      .ok ("tok", ⟨some "tok", 1000⟩) :=
  ⟨by norm_num,
   (token_cache_contract false (.error ()) 0 ⟨some "tok", 1000⟩).1 "tok" rfl
     (by decide) (by norm_num)⟩

/-- C7: the persisted `save_as_draft` flag is true whenever the deployment
send-enabled flag is off or the force-drafts flag is on, regardless of
label; and it is also true whenever the label is "manual_review" or
"uncategorised". -/
theorem draft_flag_forced (cfg : Config) (msg : Msg)
    (cleanBody dataSource : String) (hadThreads : Bool) (label : String)
    (confidence : ℚ) (mth : String) (entities : List (String × String))
    (replyText : String) :
    ((cfg.mailSendEnabled = false ∨ cfg.forceDrafts = true) →
      (mkEmailData cfg msg cleanBody dataSource hadThreads label confidence
        mth entities replyText).save_as_draft = true) ∧
    ((label = "manual_review" ∨ label = "uncategorised") →
      (mkEmailData cfg msg cleanBody dataSource hadThreads label confidence
        mth entities replyText).save_as_draft = true) := by
  constructor
  · intro h
    rcases h with h | h <;> simp [mkEmailData, saveAsDraftFlag, h]
  · intro h
    by_cases hc : ¬ cfg.mailSendEnabled = true ∨ cfg.forceDrafts = true
    · simp only [mkEmailData, saveAsDraftFlag]
      rw [if_pos hc]
    · rcases h with h | h <;>
        simp [mkEmailData, saveAsDraftFlag, hc, needsManualReviewOf, h]

/-- C7 witness: with sending enabled and no draft forcing, a
"manual_review" message is still flagged as draft. -/
theorem draft_flag_forced_witness :
    (mkEmailData ⟨true, false⟩
      { id := "m2", subject := "s", sender := "a@b", bodyPreview := "p",
        uniqueBody := none, body := none, hasAttachments := false,
        conversationId := "c", receivedDateTime := "t" }
      "body" "body_text" false "manual_review" 1 "model" [] "").save_as_draft
      = true :=
  (draft_flag_forced ⟨true, false⟩ _ "body" "body_text" false "manual_review"
      1 "model" [] "").2 (Or.inl rfl)

/-! ### Frame lemmas for the pipeline stages -/

theorem markReadStep_records (ext : Ext) (l mid : String) (w : World) :
    (markReadStep ext l mid w).records = w.records := by
  unfold markReadStep bumpErrored
  cases ext.markResult <;> simp

theorem markReadStep_skipped (ext : Ext) (l mid : String) (w : World) :
    (markReadStep ext l mid w).metrics.emails_skipped
      = w.metrics.emails_skipped := by
  unfold markReadStep bumpErrored
  cases ext.markResult <;> simp

theorem markReadStep_procErr (ext : Ext) (l mid : String) (w : World) :
    ((markReadStep ext l mid w).metrics.emails_processed
        = w.metrics.emails_processed + 1 ∧
     (markReadStep ext l mid w).metrics.emails_errored
        = w.metrics.emails_errored) ∨
    ((markReadStep ext l mid w).metrics.emails_processed
        = w.metrics.emails_processed ∧
     (markReadStep ext l mid w).metrics.emails_errored
        = w.metrics.emails_errored + 1) := by
  unfold markReadStep bumpErrored
  cases ext.markResult <;> simp

theorem moveAndMark_skipped (ext : Ext) (fm : List (String × String))
    (l mid : String) (w : World) :
    (moveAndMark ext fm l mid w).metrics.emails_skipped
      = w.metrics.emails_skipped := by
  unfold moveAndMark bumpErrored
  dsimp only []
  repeat' split
  all_goals first
    | rfl
    | exact markReadStep_skipped ext l _ _

theorem moveAndMark_procErr (ext : Ext) (fm : List (String × String))
    (l mid : String) (w : World) :
    ((moveAndMark ext fm l mid w).metrics.emails_processed
        = w.metrics.emails_processed + 1 ∧
     (moveAndMark ext fm l mid w).metrics.emails_errored
        = w.metrics.emails_errored) ∨
    ((moveAndMark ext fm l mid w).metrics.emails_processed
        = w.metrics.emails_processed ∧
     (moveAndMark ext fm l mid w).metrics.emails_errored
        = w.metrics.emails_errored + 1) := by
  unfold moveAndMark bumpErrored
  dsimp only []
  repeat' split
  all_goals first
    | exact Or.inr ⟨rfl, rfl⟩
    | exact markReadStep_procErr ext l _ _

theorem processAfterDedup_skipped (cfg : Config) (fm : List (String × String))
    (ext : Ext) (msg : Msg) (cb ds : String) (ht : Bool) (w : World) :
    (processAfterDedup cfg fm ext msg cb ds ht w).metrics.emails_skipped
      = w.metrics.emails_skipped := by
  unfold processAfterDedup classifyAndReply bumpErrored
  dsimp only []
  repeat' split
  all_goals first
    | rfl
    | exact moveAndMark_skipped ext fm _ msg.id _

theorem processAfterDedup_procErr (cfg : Config) (fm : List (String × String))
    (ext : Ext) (msg : Msg) (cb ds : String) (ht : Bool) (w : World) :
    ((processAfterDedup cfg fm ext msg cb ds ht w).metrics.emails_processed
        = w.metrics.emails_processed + 1 ∧
     (processAfterDedup cfg fm ext msg cb ds ht w).metrics.emails_errored
        = w.metrics.emails_errored) ∨
    ((processAfterDedup cfg fm ext msg cb ds ht w).metrics.emails_processed
        = w.metrics.emails_processed ∧
     (processAfterDedup cfg fm ext msg cb ds ht w).metrics.emails_errored
        = w.metrics.emails_errored + 1) := by
  unfold processAfterDedup classifyAndReply bumpErrored
  dsimp only []
  repeat' split
  all_goals first
    | exact Or.inr ⟨rfl, rfl⟩
    | exact moveAndMark_procErr ext fm _ msg.id _

/-- C10: every message submitted to `_process_single_email` increments
exactly one of the three counters `emails_skipped` / `emails_processed` /
`emails_errored` by exactly one (so after a run the three sum to the number
of messages attempted); when the existence check does not itself raise, the
skipped counter is the one incremented precisely when a persisted record
with the message id already exists. -/
theorem metrics_trichotomy (cfg : Config) (fm : List (String × String))
    (ext : Ext) (msg : Msg) (w : World) :
    (((processSingleEmail cfg fm ext msg w).metrics.emails_skipped
        = w.metrics.emails_skipped + 1 ∧
      (processSingleEmail cfg fm ext msg w).metrics.emails_processed
        = w.metrics.emails_processed ∧
      (processSingleEmail cfg fm ext msg w).metrics.emails_errored
        = w.metrics.emails_errored) ∨
     ((processSingleEmail cfg fm ext msg w).metrics.emails_skipped
        = w.metrics.emails_skipped ∧
      (processSingleEmail cfg fm ext msg w).metrics.emails_processed
        = w.metrics.emails_processed + 1 ∧
      (processSingleEmail cfg fm ext msg w).metrics.emails_errored
        = w.metrics.emails_errored) ∨
     ((processSingleEmail cfg fm ext msg w).metrics.emails_skipped
        = w.metrics.emails_skipped ∧
      (processSingleEmail cfg fm ext msg w).metrics.emails_processed
        = w.metrics.emails_processed ∧
      (processSingleEmail cfg fm ext msg w).metrics.emails_errored
        = w.metrics.emails_errored + 1)) ∧
    (ext.existsRaises = false →
      ((processSingleEmail cfg fm ext msg w).metrics.emails_skipped
          = w.metrics.emails_skipped + 1 ↔
        emailExists w.records msg.id = true)) := by
  constructor
  · unfold processSingleEmail bumpErrored
    dsimp only []
    repeat' split
    all_goals
      first
        | exact Or.inl ⟨rfl, rfl, rfl⟩
        | exact Or.inr (Or.inr ⟨rfl, rfl, rfl⟩)
        | refine (processAfterDedup_procErr cfg fm ext msg _ _ _ _).elim
            (fun h => Or.inr (Or.inl
              ⟨processAfterDedup_skipped cfg fm ext msg _ _ _ _, h.1, h.2⟩))
            (fun h => Or.inr (Or.inr
              ⟨processAfterDedup_skipped cfg fm ext msg _ _ _ _, h.1, h.2⟩))
  · intro hex
    unfold processSingleEmail bumpErrored
    dsimp only []
    simp only [hex]
    repeat' split
    all_goals simp_all [processAfterDedup_skipped]

/-! ### Record-store lemmas -/

theorem classifyAndReply_records (ext : Ext) (w : World) :
    ((classifyAndReply ext w).2.2.2.2).records = w.records := by
  unfold classifyAndReply
  dsimp only []
  repeat' split
  all_goals rfl

theorem updateMessageId_not_present (rs : List EmailRecord) (i n : String)
    (h : emailExists rs i = false) :
    updateMessageId rs i n = rs := by
  induction rs with
  | nil => rfl
  | cons x xs ih =>
    unfold emailExists at h ih
    unfold updateMessageId at ih ⊢
    simp only [List.any_cons, Bool.or_eq_false_iff] at h
    simp only [List.map_cons, ih h.2]
    rw [if_neg (by simpa using h.1)]

theorem updateMessageId_append_not_present (rs : List EmailRecord)
    (r : EmailRecord) (i n : String) (h : emailExists rs i = false)
    (hr : r.message_id = i) :
    updateMessageId (rs ++ [r]) i n = rs ++ [{ r with message_id := n }] := by
  have h1 := updateMessageId_not_present rs i n h
  unfold updateMessageId at h1 ⊢
  rw [List.map_append, h1]
  simp [hr]

theorem moveAndMark_records (ext : Ext) (fm : List (String × String))
    (l mid : String) (w : World) :
    (moveAndMark ext fm l mid w).records = w.records ∨
    ∃ nid, (moveAndMark ext fm l mid w).records = updateMessageId w.records mid nid := by
  unfold moveAndMark bumpErrored
  dsimp only []
  repeat' split
  all_goals
    first
      | exact Or.inl rfl
      | exact Or.inl (markReadStep_records ext l _ _)
      | exact Or.inr ⟨_, markReadStep_records ext l _ _⟩

theorem moveAndMark_records_length (ext : Ext) (fm : List (String × String))
    (l mid : String) (w : World) :
    (moveAndMark ext fm l mid w).records.length = w.records.length := by
  rcases moveAndMark_records ext fm l mid w with h | ⟨nid, h⟩
  · rw [h]
  · rw [h]
    unfold updateMessageId
    simp

theorem processAfterDedup_records_length (cfg : Config)
    (fm : List (String × String)) (ext : Ext) (msg : Msg) (cb ds : String)
    (ht : Bool) (w : World) (hins : ext.insertRaises = false) :
    (processAfterDedup cfg fm ext msg cb ds ht w).records.length
      = w.records.length + 1 := by
  unfold processAfterDedup
  dsimp only []
  simp only [hins, Bool.false_eq_true, if_false]
  rw [moveAndMark_records_length]
  simp [classifyAndReply_records]

/-- The skip branch of `_process_single_email`: no record write, no
classifier call, no move request, no read-status patch; only the skipped
counter (and possibly the clean-text counter) moves. -/
theorem skip_noop (cfg : Config) (fm : List (String × String)) (ext : Ext)
    (msg : Msg) (w : World) (hex : ext.existsRaises = false)
    (hdup : emailExists w.records msg.id = true) :
    (processSingleEmail cfg fm ext msg w).records = w.records ∧
    (processSingleEmail cfg fm ext msg w).classifyCalls = w.classifyCalls ∧
    (processSingleEmail cfg fm ext msg w).replyCalls = w.replyCalls ∧
    (processSingleEmail cfg fm ext msg w).moveCalls = w.moveCalls ∧
    (processSingleEmail cfg fm ext msg w).markReadCalls = w.markReadCalls ∧
    (processSingleEmail cfg fm ext msg w).metrics.emails_skipped
      = w.metrics.emails_skipped + 1 ∧
    (processSingleEmail cfg fm ext msg w).metrics.emails_processed
      = w.metrics.emails_processed ∧
    (processSingleEmail cfg fm ext msg w).metrics.emails_errored
      = w.metrics.emails_errored ∧
    (processSingleEmail cfg fm ext msg w).metrics.emails_classified
      = w.metrics.emails_classified ∧
    (processSingleEmail cfg fm ext msg w).metrics.emails_moved
      = w.metrics.emails_moved := by
  unfold processSingleEmail
  dsimp only []
  simp only [hex, Bool.false_eq_true, if_false]
  split <;> simp_all

/-! ### Concrete fixtures used by witnesses and the counterexample -/

/-- A deployment with sending enabled and no draft forcing. -/
def cfgW : Config := ⟨true, false⟩

/-- A plain unread message with a text body and no unique-body variant. -/
def msgW : Msg :=
  { id := "msg-1", subject := "invoice", sender := "a@b.com",
    bodyPreview := "please send the invoice",
    uniqueBody := none,
    body := some { content := "please send the invoice", contentType := "text" },
    hasAttachments := false, conversationId := "conv-1",
    receivedDateTime := "2024-01-01" }

/-- The empty start-of-run world. -/
def w0 : World :=
  { records := [], classifyCalls := 0, replyCalls := 0, moveCalls := [],
    markReadCalls := [], metrics := ⟨0, 0, 0, 0, 0, 0⟩ }

/-- Collaborators that all behave: a healthy classifier returning an allowed
non-response label, no exceptions, a failed (non-fatal) move, a served
read-status patch. -/
def extBenign : Ext :=
  { existsRaises := false, classifyHealthOk := true,
    classifyResp := some ⟨"no_reply_no_info", 1, "model", []⟩,
    classifyRaises := false, replyHealthOk := true, replyResp := some "reply",
    replyRaises := false, insertRaises := false,
    moveResult := .ok (false, ""), markResult := .ok true }

/-- C3: a message whose external id already has a persisted record is
skipped: the skip counter is incremented and no classification call, no
record write, no move request, and no read-status patch happens; a
first-time message adds exactly one persisted record, after which
processing any id that has a record — in particular the new record's
tracked id — is such a no-op skip, so the same message processed twice
across runs leaves exactly one persisted record. -/
theorem dedup_idempotent (cfg : Config) (fm : List (String × String))
    (ext : Ext) (msg : Msg) (w : World) :
    (ext.existsRaises = false → emailExists w.records msg.id = true →
      (processSingleEmail cfg fm ext msg w).records = w.records ∧
      (processSingleEmail cfg fm ext msg w).classifyCalls = w.classifyCalls ∧
      (processSingleEmail cfg fm ext msg w).moveCalls = w.moveCalls ∧
      (processSingleEmail cfg fm ext msg w).markReadCalls = w.markReadCalls ∧
      (processSingleEmail cfg fm ext msg w).metrics.emails_skipped
        = w.metrics.emails_skipped + 1 ∧
      (processSingleEmail cfg fm ext msg w).metrics.emails_processed
        = w.metrics.emails_processed) ∧
    (ext.existsRaises = false → ext.insertRaises = false →
      emailExists w.records msg.id = false →
      (processSingleEmail cfg fm ext msg w).records.length
        = w.records.length + 1 ∧
      ∀ (msg2 : Msg) (ext2 : Ext), ext2.existsRaises = false →
        emailExists (processSingleEmail cfg fm ext msg w).records msg2.id = true →
        (processSingleEmail cfg fm ext2 msg2
            (processSingleEmail cfg fm ext msg w)).records
          = (processSingleEmail cfg fm ext msg w).records ∧
        (processSingleEmail cfg fm ext2 msg2
            (processSingleEmail cfg fm ext msg w)).metrics.emails_skipped
          = (processSingleEmail cfg fm ext msg w).metrics.emails_skipped + 1) := by
  constructor
  · intro hex hdup
    have h := skip_noop cfg fm ext msg w hex hdup
    exact ⟨h.1, h.2.1, h.2.2.2.1, h.2.2.2.2.1, h.2.2.2.2.2.1, h.2.2.2.2.2.2.1⟩
  · intro hex hins hdup
    constructor
    · unfold processSingleEmail
      dsimp only []
      simp only [hex, Bool.false_eq_true, if_false]
      split <;>
        · simp only [hdup, if_false]
          exact processAfterDedup_records_length cfg fm ext msg _ _ _ _ hins
    · intro msg2 ext2 hex2 hdup2
      have h := skip_noop cfg fm ext2 msg2 _ hex2 hdup2
      exact ⟨h.1, h.2.2.2.2.2.1⟩

/-- C3 witness: processing a fresh message persists one record; processing
its id again is a no-op skip, leaving exactly that one record. -/
theorem dedup_idempotent_witness :
    emailExists w0.records msgW.id = false ∧
    (processSingleEmail cfgW [] extBenign msgW w0).records.length
      = w0.records.length + 1 ∧
    emailExists (processSingleEmail cfgW [] extBenign msgW w0).records msgW.id
      = true ∧
    (processSingleEmail cfgW [] extBenign msgW
        (processSingleEmail cfgW [] extBenign msgW w0)).records
      = (processSingleEmail cfgW [] extBenign msgW w0).records :=
  ⟨by decide,
   ((dedup_idempotent cfgW [] extBenign msgW w0).2 rfl rfl (by decide)).1,
   by decide,
   (((dedup_idempotent cfgW [] extBenign msgW w0).2 rfl rfl (by decide)).2
     msgW extBenign rfl (by decide)).1⟩

theorem markReadStep_classified (ext : Ext) (l mid : String) (w : World) :
    (markReadStep ext l mid w).metrics.emails_classified
      = w.metrics.emails_classified := by
  unfold markReadStep bumpErrored
  cases ext.markResult <;> simp

theorem moveAndMark_classified (ext : Ext) (fm : List (String × String))
    (l mid : String) (w : World) :
    (moveAndMark ext fm l mid w).metrics.emails_classified
      = w.metrics.emails_classified := by
  unfold moveAndMark bumpErrored
  dsimp only []
  repeat' split
  all_goals first
    | rfl
    | exact markReadStep_classified ext l _ _

/-- C6: when the classifier returns a label outside the allowed closed set,
the persisted record stores classification "uncategorised" (also used as the
routing target folder), the confidence is stored exactly as returned, and
the classification still counts as successful. -/
theorem label_coercion (cfg : Config) (fm : List (String × String)) (ext : Ext)
    (msg : Msg) (w : World) (d : ClassDict)
    (hex : ext.existsRaises = false)
    (hdup : emailExists w.records msg.id = false)
    (hcr : ext.classifyRaises = false)
    (hok : ext.classifyHealthOk = true)
    (hresp : ext.classifyResp = some d)
    (hlab : d.label ∉ ALLOWED_LABELS)
    (hins : ext.insertRaises = false) :
    (processSingleEmail cfg fm ext msg w).metrics.emails_classified
      = w.metrics.emails_classified + 1 ∧
    ∃ mid, (processSingleEmail cfg fm ext msg w).records
      = w.records ++
        [{ mkEmailData cfg msg (extractCleanEmailContent msg).1
            (extractCleanEmailContent msg).2.1 (extractCleanEmailContent msg).2.2
            "uncategorised" d.confidence d.method d.entities ""
           with message_id := mid }] := by
  have hnr : ¬ (("uncategorised" : String) ∈ RESPONSE_LABELS) := by decide
  unfold processSingleEmail
  dsimp only []
  simp only [hex, Bool.false_eq_true, if_false, hdup]
  split <;>
  · unfold processAfterDedup classifyAndReply
    dsimp only []
    simp [hdup, hcr, hok, hresp, classifyEmail, hins, hlab, hnr]
    refine ⟨?_, ?_⟩
    · rw [moveAndMark_classified]
    · rcases moveAndMark_records ext fm "uncategorised" msg.id _ with h | ⟨nid, h⟩
      · exact ⟨msg.id, by rw [h]; rfl⟩
      · refine ⟨nid, ?_⟩
        rw [h]
        exact updateMessageId_append_not_present w.records _ msg.id nid hdup rfl

/-- Collaborators whose classifier returns a label outside the allowed set. -/
def extBadLabel : Ext :=
  { existsRaises := false, classifyHealthOk := true,
    classifyResp := some ⟨"spam", 1, "model", []⟩, classifyRaises := false,
    replyHealthOk := true, replyResp := some "r", replyRaises := false,
    insertRaises := false, moveResult := .ok (false, ""),
    markResult := .ok true }

/-- C6 witness: a classifier label "spam" is stored as "uncategorised" with
the returned confidence. -/
theorem label_coercion_witness :
    (processSingleEmail cfgW [] extBadLabel msgW w0).metrics.emails_classified
      = w0.metrics.emails_classified + 1 ∧
    ∃ mid, (processSingleEmail cfgW [] extBadLabel msgW w0).records
      = w0.records ++
        [{ mkEmailData cfgW msgW (extractCleanEmailContent msgW).1
            (extractCleanEmailContent msgW).2.1 (extractCleanEmailContent msgW).2.2
            "uncategorised" 1 "model" [] ""
           with message_id := mid }] :=
  label_coercion cfgW [] extBadLabel msgW w0 ⟨"spam", 1, "model", []⟩
    rfl (by decide) rfl rfl rfl (by decide) rfl

/-- Collaborators where the reply service is down while the classifier
returns a response-eligible label. -/
def extReplyDown : Ext :=
  { existsRaises := false, classifyHealthOk := true,
    classifyResp := some ⟨"invoice_request_no_info", 1, "model", []⟩,
    classifyRaises := false, replyHealthOk := false, replyResp := none,
    replyRaises := false, insertRaises := false,
    moveResult := .ok (false, ""), markResult := .ok true }

/-- C5 counterexample: with the reply service unavailable, a message
classified "invoice_request_no_info" is persisted with that label unchanged
and an empty reply — not with label "uncategorised" as the claim states. -/
theorem reply_failure_counterexample :
    ((processSingleEmail cfgW [] extReplyDown msgW w0).records.map
        EmailRecord.classification = ["invoice_request_no_info"]) ∧
    ((processSingleEmail cfgW [] extReplyDown msgW w0).records.map
        EmailRecord.response = [""]) ∧
    ("invoice_request_no_info" : String) ≠ "uncategorised" := by
  refine ⟨by decide, by decide, by decide⟩

/-- C5 (amended): for a response-eligible label, an exception escaping the
reply step stores the message as "uncategorised" with an empty reply; a
reply-service outage or a failed/empty reply call stores an empty reply with
the classified label unchanged; in every case the record is persisted and
the message continues its lifecycle. -/
theorem reply_failure_behaviour (cfg : Config) (fm : List (String × String))
    (ext : Ext) (msg : Msg) (w : World) (d : ClassDict)
    (hex : ext.existsRaises = false)
    (hdup : emailExists w.records msg.id = false)
    (hcr : ext.classifyRaises = false)
    (hok : ext.classifyHealthOk = true)
    (hresp : ext.classifyResp = some d)
    (hall : d.label ∈ ALLOWED_LABELS)
    (hrl : d.label ∈ RESPONSE_LABELS)
    (hins : ext.insertRaises = false) :
    (ext.replyRaises = true →
      ∃ mid, (processSingleEmail cfg fm ext msg w).records
        = w.records ++
          [{ mkEmailData cfg msg (extractCleanEmailContent msg).1
              (extractCleanEmailContent msg).2.1 (extractCleanEmailContent msg).2.2
              "uncategorised" d.confidence d.method d.entities ""
             with message_id := mid }]) ∧
    (ext.replyRaises = false → ext.replyHealthOk = false →
      ∃ mid, (processSingleEmail cfg fm ext msg w).records
        = w.records ++
          [{ mkEmailData cfg msg (extractCleanEmailContent msg).1
              (extractCleanEmailContent msg).2.1 (extractCleanEmailContent msg).2.2
              d.label d.confidence d.method d.entities ""
             with message_id := mid }]) ∧
    (ext.replyRaises = false → ext.replyResp = none →
      ∃ mid, (processSingleEmail cfg fm ext msg w).records
        = w.records ++
          [{ mkEmailData cfg msg (extractCleanEmailContent msg).1
              (extractCleanEmailContent msg).2.1 (extractCleanEmailContent msg).2.2
              d.label d.confidence d.method d.entities ""
             with message_id := mid }]) := by
  refine ⟨?_, ?_, ?_⟩
  · intro hrr
    unfold processSingleEmail
    dsimp only []
    simp only [hex, Bool.false_eq_true, if_false, hdup]
    split <;>
    · unfold processAfterDedup classifyAndReply
      dsimp only []
      simp [hdup, hcr, hok, hresp, classifyEmail, hins, hall, hrl, hrr]
      rcases moveAndMark_records ext fm "uncategorised" msg.id _ with h | ⟨nid, h⟩
      · exact ⟨msg.id, by rw [h]; rfl⟩
      · refine ⟨nid, ?_⟩
        rw [h]
        exact updateMessageId_append_not_present w.records _ msg.id nid hdup rfl
  · intro hrr hh
    unfold processSingleEmail
    dsimp only []
    simp only [hex, Bool.false_eq_true, if_false, hdup]
    split <;>
    · unfold processAfterDedup classifyAndReply
      dsimp only []
      simp [hdup, hcr, hok, hresp, classifyEmail, generateReply, hins, hall, hrl,
        hrr, hh]
      rcases moveAndMark_records ext fm d.label msg.id _ with h | ⟨nid, h⟩
      · exact ⟨msg.id, by rw [h]; rfl⟩
      · refine ⟨nid, ?_⟩
        rw [h]
        exact updateMessageId_append_not_present w.records _ msg.id nid hdup rfl
  · intro hrr hh
    unfold processSingleEmail
    dsimp only []
    simp only [hex, Bool.false_eq_true, if_false, hdup]
    split <;>
    · unfold processAfterDedup classifyAndReply
      dsimp only []
      simp [hdup, hcr, hok, hresp, classifyEmail, generateReply, hins, hall, hrl,
        hrr, hh]
      rcases moveAndMark_records ext fm d.label msg.id _ with h | ⟨nid, h⟩
      · exact ⟨msg.id, by rw [h]; rfl⟩
      · refine ⟨nid, ?_⟩
        rw [h]
        exact updateMessageId_append_not_present w.records _ msg.id nid hdup rfl

/-- C5 witness: with the reply service down, the record keeps the
response-eligible label and stores an empty reply. -/
theorem reply_failure_behaviour_witness :
    ∃ mid, (processSingleEmail cfgW [] extReplyDown msgW w0).records
      = w0.records ++
        [{ mkEmailData cfgW msgW (extractCleanEmailContent msgW).1
            (extractCleanEmailContent msgW).2.1 (extractCleanEmailContent msgW).2.2
            "invoice_request_no_info" 1 "model" [] ""
           with message_id := mid }] :=
  (reply_failure_behaviour cfgW [] extReplyDown msgW w0
      ⟨"invoice_request_no_info", 1, "model", []⟩
      rfl (by decide) rfl rfl rfl (by decide) (by decide) rfl).2.1 rfl rfl

/-- C10 witness: a fresh benign message counts as processed, and the skip
counter moves only when a record already exists. -/
theorem metrics_trichotomy_witness :
    ((processSingleEmail cfgW [] extBenign msgW w0).metrics.emails_skipped
        = w0.metrics.emails_skipped + 1 ↔
      emailExists w0.records msgW.id = true) :=
  (metrics_trichotomy cfgW [] extBenign msgW w0).2 rfl

end FetchReply
